import Mathlib

/-!
Verification of the commit-message rewrite pipeline of octrow/commit_diff.

Python strings are modelled as List Char (sequences of code points, the unit
that len, slicing and iteration use in Python). Fallible code returns
Except or an explicit error flag. The external collaborators (the git
subprocess and the text-generation client) are modelled at their interface
boundary: git by a small state of references and files, the client by an
oracle from prompts to response text.
-/

/-! ## Python string primitives -/

/-- The characters for which the Python predicate str.isspace holds, i.e. the
characters removed by str.strip(). -/
def isPySpace (c : Char) : Bool :=
  c = ' ' || c = '\t' || c = '\n' || c = '\x0b' || c = '\x0c' || c = '\r' ||
  c = '\x1c' || c = '\x1d' || c = '\x1e' || c = '\x1f' || c = '\x85' || c = '\xa0' ||
  c = Char.ofNat 0x1680 || (Char.ofNat 0x2000 ≤ c && c ≤ Char.ofNat 0x200a) ||
  c = Char.ofNat 0x2028 || c = Char.ofNat 0x2029 || c = Char.ofNat 0x202f ||
  c = Char.ofNat 0x205f || c = Char.ofNat 0x3000

/-- Python str.strip(): remove leading and trailing whitespace. -/
def pyStrip (l : List Char) : List Char :=
  ((l.dropWhile isPySpace).reverse.dropWhile isPySpace).reverse

/-- Line-break characters recognised by Python str.splitlines (the pair
carriage return + line feed is additionally treated as a single break). -/
def isLineBreak (c : Char) : Bool :=
  c = '\n' || c = '\r' || c = '\x0b' || c = '\x0c' ||
  c = '\x1c' || c = '\x1d' || c = '\x1e' || c = '\x85' ||
  c = Char.ofNat 0x2028 || c = Char.ofNat 0x2029

/-- Python str.splitlines(): split at line breaks, the terminators are not
kept, a carriage return directly followed by a line feed counts as one break,
and a trailing terminator does not produce a final empty line.  In the
carriage-return-line-feed case the recursive result on the tail starts with
the empty line produced by the line feed, which the pair absorbs. -/
def splitlines : List Char → List (List Char)
  | [] => []
  | c :: cs =>
    if c = '\r' ∧ cs.head? = some '\n' then [] :: (splitlines cs).tail
    else if isLineBreak c then [] :: splitlines cs
    else
      match splitlines cs with
      | [] => [[c]]
      | l :: ls => (c :: l) :: ls

/-- The string "\n".join(lines) used to reassemble a filtered diff. -/
def joinLines : List (List Char) → List Char
  | [] => []
  | [l] => l
  | l :: ls => l ++ '\n' :: joinLines ls

/-- Python file.readline(): the first line including its terminating newline
(if any), together with the rest of the stream. -/
def pyReadline : List Char → List Char × List Char
  | [] => ([], [])
  | '\n' :: rest => (['\n'], rest)
  | c :: rest =>
    let (l, r) := pyReadline rest
    (c :: l, r)

/-! ## Diff chunking (OCDG/utils.py, generate_commit_multi)

diff_chunks = [diff[i:i + 6000] for i in range(0, len(diff), 6000)] -/

/-- The character-offset chunking of a diff: successive slices of 6000 code
points, the last slice possibly shorter.  Faithful to the list comprehension
over range(0, len(diff), 6000) in generate_commit_multi. -/
def diffChunks : List Char → List (List Char)
  | [] => []
  | c :: cs => ((c :: cs).take 6000) :: diffChunks ((c :: cs).drop 6000)
termination_by l => l.length
decreasing_by simp only [List.length_drop, List.length_cons]; omega

/-- The chunk list is exactly the slices diff[6000*i : 6000*(i+1)] for
i < ceil(len(diff)/6000). -/
theorem diffChunks_eq_slices (l : List Char) :
    diffChunks l =
      (List.range ((l.length + 5999) / 6000)).map
        (fun i => (l.drop (6000 * i)).take 6000) := by
  induction l using diffChunks.induct with
  | case1 => simp [diffChunks]
  | case2 c cs ih =>
    have hlen : ((c :: cs).length + 5999) / 6000 =
        (((c :: cs).drop 6000).length + 5999) / 6000 + 1 := by
      simp only [List.length_drop, List.length_cons]
      omega
    rw [diffChunks, ih, hlen, List.range_succ_eq_map]
    refine congrArg₂ List.cons (by simp) ?_
    rw [List.map_map]
    refine List.map_congr_left (fun i _ => ?_)
    simp only [Function.comp_apply, List.drop_drop, Nat.succ_eq_add_one]
    have h2 : ∀ a b : Nat, a = b →
        ((c :: cs).drop a).take 6000 = ((c :: cs).drop b).take 6000 :=
      fun a b hab => by rw [hab]
    exact h2 _ _ (by omega)

/-- Concatenating the chunks gives back the diff. -/
theorem diffChunks_flatten (l : List Char) : (diffChunks l).flatten = l := by
  induction l using diffChunks.induct with
  | case1 => simp [diffChunks]
  | case2 c cs ih =>
    rw [diffChunks]
    simp only [List.flatten_cons, ih, List.take_append_drop]

/-- Every chunk except possibly the last has length exactly 6000. -/
theorem diffChunks_dropLast_length (l : List Char) :
    ∀ ch ∈ (diffChunks l).dropLast, ch.length = 6000 := by
  induction l using diffChunks.induct with
  | case1 => simp [diffChunks]
  | case2 c cs ih =>
    rw [diffChunks]
    cases hrec : diffChunks ((c :: cs).drop 6000) with
    | nil => simp
    | cons d ds =>
      have hne : (c :: cs).drop 6000 ≠ [] := by
        intro hnil
        rw [hnil] at hrec
        simp [diffChunks] at hrec
      have hlen : 6000 < (c :: cs).length := by
        have h1 := List.length_pos.mpr hne
        simp only [List.length_drop] at h1
        omega
      rw [List.dropLast_cons₂]
      intro ch hch
      rcases List.mem_cons.mp hch with h | h
      · subst h
        simp only [List.length_take]
        omega
      · rw [← hrec] at h
        exact ih ch h

/-- The lengths of the chunks are a function of the length of the diff
alone. -/
theorem diffChunks_map_length (l : List Char) :
    (diffChunks l).map List.length =
      (List.range ((l.length + 5999) / 6000)).map
        (fun i => min 6000 (l.length - 6000 * i)) := by
  rw [diffChunks_eq_slices, List.map_map]
  refine List.map_congr_left (fun i _ => ?_)
  simp [List.length_take, List.length_drop]

/-- C5: for every diff of length at least 6000, the chunk list is exactly the
character-offset slices of size 6000: all chunks but possibly the last have
length exactly 6000, the chunks concatenate back to the diff in order with no
gap and no overlap, the chunk count is the ceiling of length/6000, and the
chunk boundaries depend only on the length of the diff, never on its
content. -/
theorem C5_chunking_is_offset_slicing (d : List Char) (h : 6000 ≤ d.length) :
    (diffChunks d).flatten = d
    ∧ (diffChunks d).length = (d.length + 5999) / 6000
    ∧ (∀ ch ∈ (diffChunks d).dropLast, ch.length = 6000)
    ∧ (∀ i, (hi : i < (diffChunks d).length) →
        (diffChunks d).get ⟨i, hi⟩ = (d.drop (6000 * i)).take 6000)
    ∧ (∀ d2 : List Char, d2.length = d.length →
        (diffChunks d2).map List.length = (diffChunks d).map List.length) := by
  refine ⟨diffChunks_flatten d, ?_, diffChunks_dropLast_length d, ?_, ?_⟩
  · rw [diffChunks_eq_slices]
    simp
  · intro i hi
    rw [List.get_eq_getElem, List.getElem_of_eq (diffChunks_eq_slices d) hi]
    simp
  · intro d2 h2
    rw [diffChunks_map_length, diffChunks_map_length, h2]

/-- Witness for C5 at a concrete 7000-character diff. -/
theorem C5_chunking_is_offset_slicing_witness :
    6000 ≤ (List.replicate 7000 'a').length
    ∧ ((diffChunks (List.replicate 7000 'a')).flatten = List.replicate 7000 'a'
    ∧ (diffChunks (List.replicate 7000 'a')).length =
        ((List.replicate 7000 'a').length + 5999) / 6000
    ∧ (∀ ch ∈ (diffChunks (List.replicate 7000 'a')).dropLast, ch.length = 6000)
    ∧ (∀ i, (hi : i < (diffChunks (List.replicate 7000 'a')).length) →
        (diffChunks (List.replicate 7000 'a')).get ⟨i, hi⟩ =
          ((List.replicate 7000 'a').drop (6000 * i)).take 6000)
    ∧ (∀ d2 : List Char, d2.length = (List.replicate 7000 'a').length →
        (diffChunks d2).map List.length =
          (diffChunks (List.replicate 7000 'a')).map List.length)) :=
  ⟨by simp only [List.length_replicate]; omega,
    C5_chunking_is_offset_slicing (List.replicate 7000 'a')
      (by simp only [List.length_replicate]; omega)⟩

/-! ## Diff filtering (main.py, filter_diff)

The regular expressions of main.py are compiled by hand into executable
matching functions; each definition records the pattern it implements. -/

/-- Bool-valued contiguous-substring test: the first list occurs as a
contiguous segment of the second (re.search of a literal pattern). -/
def containsSeg : List Char → List Char → Bool
  | pat, [] => pat.isEmpty
  | pat, c :: rest => pat.isPrefixOf (c :: rest) || containsSeg pat rest

/-- A section header line: line.startswith of the text diff --git
followed by a space. -/
def isHeaderLine (l : List Char) : Bool :=
  ("diff --git ".data).isPrefixOf l

/-- re.search for the merged pattern .idea.*node_modules.* from
IGNORED_SECTION_PATTERNS: the two adjacent string literals of main.py are
concatenated by Python, so one pattern requires some character, then the text
idea, then later the text node_modules.  Search tries every start position. -/
def ideaNodeHit : List Char → Bool
  | [] => false
  | _ :: rest =>
    (("idea".data).isPrefixOf rest && containsSeg ("node_modules".data) (rest.drop 4))
    || ideaNodeHit rest

/-- any(re.search(pattern, line) for pattern in IGNORED_SECTION_PATTERNS):
the set holds the three patterns venv.* and .idea.*node_modules.* and
__pycache__.* , whose re.search succeeds exactly on these conditions. -/
def sectionMatch (l : List Char) : Bool :=
  containsSeg ("venv".data) l || ideaNodeHit l || containsSeg ("__pycache__".data) l

/-- The optional head alternatives of the path-extraction pattern of
filter_diff, in source order. -/
def pathHeadAlternatives : List (List Char) :=
  [("+++ ".data), ("--- ".data), ("diff --git ".data), ("index ".data),
    ("Binary files ".data)]

/-- The lazy fragment followed by a space-or-tab class: the shortest run of
characters up to the first space or tab, if one exists at all. -/
def findCapture : List Char → Option (List Char)
  | [] => none
  | c :: rest =>
    if c = ' ' || c = '\t' then some []
    else (findCapture rest).map (fun x => c :: x)

/-- The capture group of re.search applied to a line for the pattern of
filter_diff that starts with a start anchor, an optional non-capturing group
of the five head alternatives, a lazy dot-star capture and a space-or-tab
class.  The greedy optional group first tries the alternative that is a head
of the line; if no space or tab follows the consumed head, the group
backtracks to consuming nothing. -/
def extractPath (l : List Char) : Option (List Char) :=
  match pathHeadAlternatives.find? (fun p => p.isPrefixOf l) with
  | some p =>
    match findCapture (l.drop p.length) with
    | some cap => some cap
    | none => findCapture l
  | none => findCapture l

/-- The dotted suffixes compiled from IGNORED_LINE_PATTERNS: each pattern of
the shape dot-star, an escaped dot, an alternative group of extensions and an
end anchor succeeds exactly when the path ends with a dot and one of the
extensions. -/
def lineIgnoreSuffixes : List (List Char) :=
  [(".png".data), (".jpg".data), (".jpeg".data), (".gif".data), (".bmp".data),
    (".tiff".data), (".svg".data), (".ico".data), (".raw".data), (".psd".data),
    (".ai".data),
    (".xlsx".data), (".xls".data), (".docx".data), (".pptx".data), (".pdf".data),
    (".pack".data), (".idx".data), (".DS_Store".data), (".sys".data),
    (".ini".data), (".bat".data), (".plist".data),
    (".exe".data), (".dll".data), (".so".data), (".bin".data),
    (".zip".data), (".rar".data), (".7z".data), (".tar".data), (".gz".data),
    (".bz2".data),
    (".mp3".data), (".wav".data), (".aac".data), (".flac".data),
    (".mp4".data), (".avi".data), (".mov".data), (".wmv".data), (".flv".data),
    (".db".data), (".sqlitedb".data), (".mdb".data),
    (".ttf".data), (".otf".data), (".woff".data), (".woff2".data),
    (".tmp".data), (".temp".data), (".swp".data), (".swo".data),
    (".o".data), (".obj".data), (".pyc".data), (".class".data),
    (".cer".data), (".pem".data), (".crt".data), (".key".data),
    (".conf".data), (".cfg".data), (".config".data),
    (".env".data), (".pyo".data),
    (".err".data), (".stderr".data), (".stdout".data), (".log".data),
    (".cache".data), (".cached".data)]

/-- The unanchored substring patterns of IGNORED_LINE_PATTERNS: the bare
pattern node_modules and the alternative group of the four lock files. -/
def lineIgnoreInfixes : List (List Char) :=
  [("node_modules".data), ("package-lock.json".data), ("poetry.lock".data),
    ("yarn.lock".data), ("Gemfile.lock".data)]

/-- any(re.search(pattern, file_path) for pattern in IGNORED_LINE_PATTERNS). -/
def linePatternsHit (path : List Char) : Bool :=
  lineIgnoreSuffixes.any (fun s => s.isSuffixOf path)
  || lineIgnoreInfixes.any (fun s => containsSeg s path)

/-- The line-level filtering decision of filter_diff: a non-header line is
discarded exactly when the path-extraction pattern matches and the stripped
capture hits one of the line-ignore patterns. -/
def lineDrop (l : List Char) : Bool :=
  match extractPath l with
  | some cap => linePatternsHit (pyStrip cap)
  | none => false

/-- The line scan of filter_diff: a boolean flag marks that the current
section is being skipped; a header line matching a section-ignore pattern
sets the flag and is discarded with the following lines of its section; a
header line matching no pattern clears the flag and is kept; every other line
outside a skipped section is kept unless lineDrop discards it. -/
def filterLines (skip : Bool) : List (List Char) → List (List Char)
  | [] => []
  | l :: rest =>
    if isHeaderLine l then
      if sectionMatch l then filterLines true rest
      else l :: filterLines false rest
    else
      if skip then filterLines skip rest
      else if lineDrop l then filterLines skip rest
      else l :: filterLines skip rest

/-- filter_diff of main.py: split the diff into lines, scan them with the
section flag initially clear, and join the kept lines with newlines. -/
def filter_diff (diff : List Char) : List Char :=
  joinLines (filterLines false (splitlines diff))

/-! ## Properties of the line scan -/

/-- Scanning already-scanned lines changes nothing: every kept header fails
the section patterns and every kept plain line fails the line patterns, so a
second scan keeps them all again. -/
theorem filterLines_idem (ls : List (List Char)) :
    ∀ skip, filterLines false (filterLines skip ls) = filterLines skip ls := by
  induction ls with
  | nil => intro skip; rfl
  | cons l rest ih =>
    intro skip
    simp only [filterLines]
    by_cases hh : isHeaderLine l = true
    · rw [if_pos hh]
      by_cases hs : sectionMatch l = true
      · rw [if_pos hs]; exact ih true
      · rw [if_neg hs]
        simp only [filterLines, if_pos hh, if_neg hs]
        rw [ih false]
    · rw [if_neg hh]
      cases skip with
      | true =>
        rw [if_pos rfl]
        exact ih true
      | false =>
        rw [if_neg (by decide)]
        by_cases hd : lineDrop l = true
        · rw [if_pos hd]; exact ih false
        · rw [if_neg hd]
          simp only [filterLines, if_neg hh, if_neg (by decide : ¬(false = true)),
            if_neg hd]
          rw [ih false]

/-- The kept lines form a sublist of the scanned lines: no line is ever
reordered or invented. -/
theorem filterLines_sublist (ls : List (List Char)) :
    ∀ skip, List.Sublist (filterLines skip ls) ls := by
  induction ls with
  | nil => intro skip; simp [filterLines]
  | cons l rest ih =>
    intro skip
    simp only [filterLines]
    by_cases hh : isHeaderLine l = true
    · rw [if_pos hh]
      by_cases hs : sectionMatch l = true
      · rw [if_pos hs]; exact List.Sublist.cons l (ih true)
      · rw [if_neg hs]; exact List.Sublist.cons₂ l (ih false)
    · rw [if_neg hh]
      cases skip with
      | true =>
        rw [if_pos rfl]
        exact List.Sublist.cons l (ih true)
      | false =>
        rw [if_neg (by decide)]
        by_cases hd : lineDrop l = true
        · rw [if_pos hd]; exact List.Sublist.cons l (ih false)
        · rw [if_neg hd]; exact List.Sublist.cons₂ l (ih false)

/-! ## Properties of splitlines and joinLines -/

theorem splitlines_cons_break (c : Char) (cs : List Char) (hb : isLineBreak c = true)
    (hno : ¬(c = '\r' ∧ cs.head? = some '\n')) :
    splitlines (c :: cs) = [] :: splitlines cs := by
  rw [splitlines, if_neg hno, if_pos hb]

theorem splitlines_cons_nonbreak (c : Char) (cs : List Char)
    (hb : isLineBreak c = false) :
    splitlines (c :: cs) =
      (match splitlines cs with
      | [] => [[c]]
      | l :: ls => (c :: l) :: ls) := by
  have hno : ¬(c = '\r' ∧ cs.head? = some '\n') := by
    rintro ⟨h1, _⟩
    rw [h1] at hb
    simp [isLineBreak] at hb
  rw [splitlines, if_neg hno, if_neg (by simp [hb])]

/-- No line produced by splitlines contains a line-break character. -/
theorem splitlines_no_break (d : List Char) :
    ∀ l ∈ splitlines d, ∀ c ∈ l, isLineBreak c = false := by
  induction d with
  | nil => simp [splitlines]
  | cons c cs ih =>
    by_cases hcr : c = '\r' ∧ cs.head? = some '\n'
    · rw [splitlines, if_pos hcr]
      intro l hl x hx
      rcases List.mem_cons.mp hl with h | h
      · subst h; simp at hx
      · exact ih l ((List.tail_sublist (splitlines cs)).subset h) x hx
    · by_cases hb : isLineBreak c = true
      · rw [splitlines, if_neg hcr, if_pos hb]
        intro l hl x hx
        rcases List.mem_cons.mp hl with h | h
        · subst h; simp at hx
        · exact ih l h x hx
      · rw [splitlines, if_neg hcr, if_neg hb]
        rw [Bool.not_eq_true] at hb
        cases hsc : splitlines cs with
        | nil =>
          intro l hl x hx
          simp only [List.mem_singleton] at hl
          subst hl
          simp only [List.mem_singleton] at hx
          subst hx
          exact hb
        | cons l0 ls0 =>
          intro l hl x hx
          rcases List.mem_cons.mp hl with h | h
          · subst h
            rcases List.mem_cons.mp hx with h2 | h2
            · subst h2; exact hb
            · exact ih l0 (hsc ▸ List.mem_cons_self l0 ls0) x h2
          · exact ih l (hsc ▸ List.mem_cons_of_mem l0 h) x hx

/-- Appending a newline and more text after a break-free line prepends
exactly that line to the split of the rest. -/
theorem splitlines_append_newline (a t : List Char)
    (ha : ∀ c ∈ a, isLineBreak c = false) :
    splitlines (a ++ '\n' :: t) = a :: splitlines t := by
  induction a with
  | nil =>
    rw [List.nil_append,
      splitlines_cons_break '\n' t (by simp [isLineBreak]) (by simp)]
  | cons c a2 ih =>
    have hc : isLineBreak c = false := ha c (List.mem_cons_self c a2)
    have ha2 : ∀ x ∈ a2, isLineBreak x = false :=
      fun x hx => ha x (List.mem_cons_of_mem c hx)
    rw [List.cons_append, splitlines_cons_nonbreak c _ hc, ih ha2]

/-- A nonempty break-free string splits into the single line that it is. -/
theorem splitlines_all_nonbreak (a : List Char) (hne : a ≠ [])
    (ha : ∀ c ∈ a, isLineBreak c = false) : splitlines a = [a] := by
  induction a with
  | nil => exact absurd rfl hne
  | cons c a2 ih =>
    have hc : isLineBreak c = false := ha c (List.mem_cons_self c a2)
    rw [splitlines_cons_nonbreak c a2 hc]
    cases a2 with
    | nil => rfl
    | cons d a3 =>
      rw [ih (List.cons_ne_nil d a3) (fun x hx => ha x (List.mem_cons_of_mem c hx))]

/-- joinLines inverts splitlines on line lists that contain no break
character and do not end with an empty line. -/
theorem splitlines_joinLines (L : List (List Char))
    (hL : ∀ l ∈ L, ∀ c ∈ l, isLineBreak c = false)
    (hlast : L.getLast? ≠ some []) :
    splitlines (joinLines L) = L := by
  induction L with
  | nil => simp [joinLines, splitlines]
  | cons a rest ih =>
    cases rest with
    | nil =>
      have hne : a ≠ [] := by
        intro h
        subst h
        exact hlast (by simp)
      rw [joinLines]
      exact splitlines_all_nonbreak a hne (hL a (List.mem_cons_self a []))
    | cons b rest2 =>
      have hjoin : joinLines (a :: b :: rest2) = a ++ '\n' :: joinLines (b :: rest2) := rfl
      rw [hjoin, splitlines_append_newline a _ (hL a (List.mem_cons_self a _)),
        ih (fun l hl => hL l (List.mem_cons_of_mem a hl))
          (by
            intro h
            exact hlast (by rw [List.getLast?_cons_cons]; exact h))]

/-- C7 counterexample: filter_diff is not idempotent.  On the diff made of
two newline characters the first pass keeps two empty lines and joins them
into a single newline, while the second pass sees only one line (a trailing
terminator yields no final empty line) and returns the empty string. -/
theorem C7_filter_diff_not_idempotent :
    ¬ (filter_diff (filter_diff ("\n\n".data)) = filter_diff ("\n\n".data)) := by
  decide

/-- C7 amended: re-filtering changes nothing provided the list of kept lines
does not end in an empty line; the line scan itself is idempotent, and the
only string-level discrepancy is the loss of a trailing empty kept line when
the output is split again. -/
theorem C7_filter_diff_idempotent_no_trailing_blank (d : List Char)
    (h : (filterLines false (splitlines d)).getLast? ≠ some []) :
    filter_diff (filter_diff d) = filter_diff d := by
  unfold filter_diff
  rw [splitlines_joinLines (filterLines false (splitlines d))
      (fun l hl c hc => splitlines_no_break d l
        ((filterLines_sublist (splitlines d) false).subset hl) c hc) h,
    filterLines_idem (splitlines d) false]

/-- Witness for the amended C7 on a concrete diff line. -/
theorem C7_filter_diff_idempotent_no_trailing_blank_witness :
    ((filterLines false (splitlines ("hello x\n".data))).getLast? ≠ some [])
    ∧ filter_diff (filter_diff ("hello x\n".data)) = filter_diff ("hello x\n".data) :=
  ⟨by decide,
    C7_filter_diff_idempotent_no_trailing_blank ("hello x\n".data) (by decide)⟩

/-! ## Sections of a diff (for the section-level filtering property) -/

/-- One section of a unified diff: its header line and the body lines before
the next header. -/
structure DiffSection where
  header : List Char
  body : List (List Char)

/-- The lines of a section, header first. -/
def sectionLines (s : DiffSection) : List (List Char) :=
  s.header :: s.body

/-- The lines filter_diff keeps from one section: nothing when the header
matches a section-ignore pattern, otherwise the header followed by the body
lines that survive the line-level filter. -/
def sectionKept (s : DiffSection) : List (List Char) :=
  if sectionMatch s.header then []
  else s.header :: s.body.filter (fun l => !lineDrop l)

/-- While the skip flag is set, every line up to the next header is
discarded. -/
theorem filterLines_skipBody (body rest : List (List Char))
    (hb : ∀ l ∈ body, isHeaderLine l = false) :
    filterLines true (body ++ rest) = filterLines true rest := by
  induction body with
  | nil => rfl
  | cons l b2 ih =>
    have hl := hb l (List.mem_cons_self l b2)
    rw [List.cons_append]
    simp only [filterLines]
    rw [if_neg (by simp [hl]), if_pos (by trivial)]
    exact ih (fun x hx => hb x (List.mem_cons_of_mem l hx))

/-- While the skip flag is clear, the lines up to the next header are kept
exactly when the line-level filter keeps them. -/
theorem filterLines_keepBody (body rest : List (List Char))
    (hb : ∀ l ∈ body, isHeaderLine l = false) :
    filterLines false (body ++ rest) =
      body.filter (fun l => !lineDrop l) ++ filterLines false rest := by
  induction body with
  | nil => rfl
  | cons l b2 ih =>
    have hl := hb l (List.mem_cons_self l b2)
    have ih2 := ih (fun x hx => hb x (List.mem_cons_of_mem l hx))
    rw [List.cons_append]
    simp only [filterLines]
    rw [if_neg (by simp [hl]), if_neg (fun h => by simp at h)]
    by_cases hd : lineDrop l = true
    · rw [if_pos hd, ih2, List.filter_cons]
      simp [hd]
    · rw [if_neg hd, ih2, List.filter_cons]
      simp only [Bool.not_eq_true] at hd
      simp [hd]

/-- Scanning a list of well-formed sections keeps, for each section, exactly
the lines of sectionKept, independently of the incoming skip flag. -/
theorem filterLines_sections (ss : List DiffSection)
    (hwf : ∀ s ∈ ss, isHeaderLine s.header = true
      ∧ ∀ l ∈ s.body, isHeaderLine l = false) :
    ∀ skip, filterLines skip ((ss.map sectionLines).flatten) =
      (ss.map sectionKept).flatten := by
  induction ss with
  | nil => intro skip; rfl
  | cons s ss2 ih =>
    intro skip
    obtain ⟨hh, hbody⟩ := hwf s (List.mem_cons_self s ss2)
    have hwf2 : ∀ s2 ∈ ss2, isHeaderLine s2.header = true
        ∧ ∀ l ∈ s2.body, isHeaderLine l = false :=
      fun s2 hs2 => hwf s2 (List.mem_cons_of_mem s hs2)
    simp only [List.map_cons, List.flatten_cons, sectionLines, List.cons_append]
    simp only [filterLines]
    rw [if_pos hh]
    by_cases hs : sectionMatch s.header = true
    · rw [if_pos hs, filterLines_skipBody s.body _ hbody, ih hwf2 true]
      simp [sectionKept, hs]
    · rw [if_neg hs, filterLines_keepBody s.body _ hbody, ih hwf2 false]
      simp [sectionKept, hs]

/-- C8: on a diff made of a header-free prelude followed by header-led
sections, filter_diff emits, in order: the prelude lines that survive the
line-level filter, then for every section either nothing (header matches a
section-ignore pattern) or its header followed by the body lines whose
extracted path matches no line-ignore pattern; kept lines are never
reordered. -/
theorem C8_sectionwise_filtering (d : List Char) (pre : List (List Char))
    (ss : List DiffSection)
    (hsplit : splitlines d = pre ++ (ss.map sectionLines).flatten)
    (hpre : ∀ l ∈ pre, isHeaderLine l = false)
    (hwf : ∀ s ∈ ss, isHeaderLine s.header = true
      ∧ ∀ l ∈ s.body, isHeaderLine l = false) :
    filter_diff d =
      joinLines (pre.filter (fun l => !lineDrop l)
        ++ (ss.map sectionKept).flatten) := by
  unfold filter_diff
  rw [hsplit, filterLines_keepBody pre _ hpre, filterLines_sections ss hwf false]

/-- The two-section diff used to witness C8: a section under venv, which the
section-ignore patterns match, followed by an ordinary source section. -/
def c8Diff : List Char :=
  ("diff --git a/venv/lib b/venv/lib\n+secret stuff\ndiff --git a/s.py b/s.py\nindex 1.. 2\n+x = 1").data

/-- The section decomposition of c8Diff. -/
def c8Sections : List DiffSection :=
  [⟨("diff --git a/venv/lib b/venv/lib").data, [("+secret stuff").data]⟩,
    ⟨("diff --git a/s.py b/s.py").data, [("index 1.. 2").data, ("+x = 1").data]⟩]

/-- Witness for C8 on the concrete two-section diff. -/
theorem C8_sectionwise_filtering_witness :
    (splitlines c8Diff = [] ++ (c8Sections.map sectionLines).flatten
      ∧ (∀ l ∈ ([] : List (List Char)), isHeaderLine l = false)
      ∧ (∀ s ∈ c8Sections, isHeaderLine s.header = true
          ∧ ∀ l ∈ s.body, isHeaderLine l = false))
    ∧ filter_diff c8Diff =
        joinLines (([] : List (List Char)).filter (fun l => !lineDrop l)
          ++ (c8Sections.map sectionKept).flatten) :=
  ⟨⟨by decide, by decide, by decide⟩,
    C8_sectionwise_filtering c8Diff [] c8Sections (by decide) (by decide) (by decide)⟩

/-- A diff whose only section is the diff of the file a/image.png, in the
shape git prints for a binary file. -/
def pngOnlyDiff : List Char :=
  ("diff --git a/image.png b/image.png\nindex 0000000..e69de29\nBinary files /dev/null and b/image.png differ").data

/-- C9 counterexample: the png-only diff is not filtered to the empty diff.
Header lines are only ever removed by the section-ignore patterns, and on
none of the three lines does the path extraction yield a path ending in the
png extension (it yields the texts index and /dev/null on the body lines). -/
theorem C9_png_only_diff_not_emptied :
    ¬ (filter_diff pngOnlyDiff = []) := by decide

/-- C9 amended: filter_diff keeps the png-only section in full, returning
the diff unchanged; the line-ignore pattern for the png extension removes
only non-header lines whose extracted path matches, and no line of this
section extracts such a path. -/
theorem C9_png_only_diff_unchanged :
    filter_diff pngOnlyDiff = pngOnlyDiff := by decide

/-! ## Commit records and their consumers (main.py)

A commit record as used by main.py: the new_message field is absent until
the generation phase stores a replacement.  Python truthiness of the field
(None and the empty string are both falsy) governs every consumer. -/

structure Commit where
  hash : List Char
  author : List Char
  message : List Char
  new_message : Option (List Char)
deriving DecidableEq

/-- Python truthiness of commit.new_message: None and the empty string are
falsy, every other string is truthy. -/
def truthyMessage : Option (List Char) → Bool
  | none => false
  | some s => !s.isEmpty

/-- The entries printed by user_confirms_rewrite: one block of hash, author,
old and new message for every commit whose new_message is truthy. -/
def user_confirms_rewrite_display (commits : List Commit) :
    List (List Char × List Char × List Char × List Char) :=
  commits.filterMap (fun c =>
    if truthyMessage c.new_message then
      some (c.hash, c.author, c.message, c.new_message.getD [])
    else none)

/-- The triples appended by save_commit_messages_to_log: hash, old message
and new message for every commit whose new_message is truthy. -/
def save_commit_messages_to_log_entries (commits : List Commit) :
    List (List Char × List Char × List Char) :=
  commits.filterMap (fun c =>
    if truthyMessage c.new_message then
      some (c.hash, c.message, c.new_message.getD [])
    else none)

/-- The hash-to-message dictionary that generate_filter_script embeds in the
generated script: one entry per commit whose new_message is truthy.  The
script source escapes single quotes when writing each value and the Python
parser of the generated script undoes that escaping, so for messages free of
backslashes and line breaks the runtime value equals the stored message. -/
def message_map (commits : List Commit) : List (List Char × List Char) :=
  commits.filterMap (fun c =>
    if truthyMessage c.new_message then
      some (c.hash, c.new_message.getD [])
    else none)

/-- dict.get(key, fallback) over the association list of the script, first
match wins (commit hashes are unique keys). -/
def dictGet (m : List (List Char × List Char)) (key fallback : List Char) :
    List Char :=
  match m with
  | [] => fallback
  | (k, v) :: rest => if k = key then v else dictGet rest key fallback

/-- filter_message of the generated script: it reads one further line from
standard input, strips it, and uses it as the candidate hash for the lookup;
the message argument is the fallback. -/
def filter_message (message_map2 : List (List Char × List Char))
    (message : List Char) (stdinRest : List Char) : List Char :=
  dictGet message_map2 (pyStrip (pyReadline stdinRest).1) message

/-- The main block of the generated script: the first line of standard input
is stripped and passed as the message, filter_message consumes a second line
as the candidate hash, and print appends a newline to the result. -/
def filter_script_run (message_map2 : List (List Char × List Char))
    (stdin : List Char) : List Char :=
  filter_message message_map2 (pyStrip (pyReadline stdin).1)
    (pyReadline stdin).2 ++ ['\n']

/-- One invocation of the message filter during the history rewrite: the
rewrite mechanism pipes the original commit message of the current commit to
the standard input of the script and takes its standard output as the new
message.  The commit hash is never written to that standard input. -/
def msg_filter_invocation (commits : List Commit)
    (originalMessage : List Char) : List Char :=
  filter_script_run (message_map commits) originalMessage

/-- The commit history used for the C1 evaluation: one commit carrying a
replacement message. -/
def c1History : List Commit :=
  [{ hash := ("abc123").data, author := ("Ann").data,
     message := ("old message").data, new_message := some (("New msg").data) }]

/-- C1 evaluation: although the hash of the commit is a key of the mapping,
invoking the generated filter on the commit (its original message on
standard input, as the history rewrite does) emits the original message; the
script consumes the first message line as its message argument and the
second line, empty at end of input, as the candidate hash, so the lookup
misses. -/
theorem C1_filter_script_emits_original_despite_mapping :
    dictGet (message_map c1History) (("abc123").data) [] = ("New msg").data
    ∧ msg_filter_invocation c1History (("old message\n").data)
        = ("old message\n").data := by decide

/-- C10: a commit whose stored replacement message is the empty string is
handled by every consumer exactly like a commit with no replacement at all:
the confirmation display, the audit log and the script mapping are unchanged
when the empty replacement is replaced by none, and consequently the
generated filter emits the same message for every input. -/
theorem C10_empty_replacement_like_no_replacement
    (pre post : List Commit) (c : Commit) (h : c.new_message = some []) :
    (user_confirms_rewrite_display (pre ++ c :: post)
      = user_confirms_rewrite_display (pre ++ { c with new_message := none } :: post))
    ∧ (save_commit_messages_to_log_entries (pre ++ c :: post)
      = save_commit_messages_to_log_entries (pre ++ { c with new_message := none } :: post))
    ∧ (message_map (pre ++ c :: post)
      = message_map (pre ++ { c with new_message := none } :: post))
    ∧ (∀ stdin : List Char,
        msg_filter_invocation (pre ++ c :: post) stdin
          = msg_filter_invocation (pre ++ { c with new_message := none } :: post) stdin) := by
  have hmap : message_map (pre ++ c :: post)
      = message_map (pre ++ { c with new_message := none } :: post) := by
    unfold message_map
    rw [List.filterMap_append, List.filterMap_append]
    refine congrArg₂ _ rfl ?_
    rw [List.filterMap_cons, List.filterMap_cons, h]
    rfl
  refine ⟨?_, ?_, hmap, ?_⟩
  · unfold user_confirms_rewrite_display
    rw [List.filterMap_append, List.filterMap_append]
    refine congrArg₂ _ rfl ?_
    rw [List.filterMap_cons, List.filterMap_cons, h]
    rfl
  · unfold save_commit_messages_to_log_entries
    rw [List.filterMap_append, List.filterMap_append]
    refine congrArg₂ _ rfl ?_
    rw [List.filterMap_cons, List.filterMap_cons, h]
    rfl
  · intro stdin
    unfold msg_filter_invocation
    rw [hmap]

/-- Witness for C10 on a concrete one-commit history. -/
theorem C10_empty_replacement_like_no_replacement_witness :
    (Commit.mk (("abc123").data) (("Ann").data) (("old message").data)
        (some [])).new_message = some []
    ∧ ((user_confirms_rewrite_display ([] ++ Commit.mk (("abc123").data) (("Ann").data)
          (("old message").data) (some []) :: [])
      = user_confirms_rewrite_display ([] ++ { Commit.mk (("abc123").data) (("Ann").data)
          (("old message").data) (some []) with new_message := none } :: []))
    ∧ (save_commit_messages_to_log_entries ([] ++ Commit.mk (("abc123").data) (("Ann").data)
          (("old message").data) (some []) :: [])
      = save_commit_messages_to_log_entries ([] ++ { Commit.mk (("abc123").data) (("Ann").data)
          (("old message").data) (some []) with new_message := none } :: []))
    ∧ (message_map ([] ++ Commit.mk (("abc123").data) (("Ann").data)
          (("old message").data) (some []) :: [])
      = message_map ([] ++ { Commit.mk (("abc123").data) (("Ann").data)
          (("old message").data) (some []) with new_message := none } :: []))
    ∧ (∀ stdin : List Char,
        msg_filter_invocation ([] ++ Commit.mk (("abc123").data) (("Ann").data)
            (("old message").data) (some []) :: []) stdin
          = msg_filter_invocation ([] ++ { Commit.mk (("abc123").data) (("Ann").data)
              (("old message").data) (some []) with new_message := none } :: []) stdin)) :=
  ⟨rfl, C10_empty_replacement_like_no_replacement [] []
    (Commit.mk (("abc123").data) (("Ann").data) (("old message").data) (some [])) rfl⟩

/-! ## Reference backup and restore (main.py, RepositoryUpdater)

The git subprocess collaborator is modelled by a state of references
(fully-qualified name to target object id) and of files inside the
repository, both as association lists.  run_git_command passes its argument
list to subprocess.run without a shell, so redirection tokens such as a
greater-than or less-than sign are ordinary arguments of git, never
redirections performed by a shell. -/

structure GitState where
  refs : List (String × String)
  files : List (String × String)
deriving DecidableEq

/-- The repository-relative path of the refs backup file. -/
def refsBackupFile : String := ".git/refs_backup"

/-- The rendering of the format argument of for-each-ref for one reference:
the format string is the text %(refname) surrounded by single quotes, so
each output line is the reference name surrounded by literal single quotes,
and no target object id appears. -/
def forEachRefLine (name : String) : String := "'" ++ name ++ "'"

/-- The ref patterns backup_refs passes to for-each-ref.  Because no shell is
involved, the redirection token and the backup path arrive as two further
patterns; they match no reference. -/
def backupRefPatterns : List String :=
  ["refs/heads/", "refs/remotes/", "refs/tags/", ">", ".git/refs_backup"]

/-- A reference name matches a pattern when the pattern is a leading path of
the name. -/
def refMatchesAnyPattern (name : String) : Bool :=
  backupRefPatterns.any (fun p => p.data.isPrefixOf name.data)

/-- backup_refs: run for-each-ref over the three real patterns plus the two
tokens meant as a redirection.  The captured standard output is returned to
the caller of run_git_command and discarded; no file is written and the
state is unchanged. -/
def backup_refs (st : GitState) : GitState × String :=
  (st, String.join (((st.refs.filter (fun r => refMatchesAnyPattern r.1)).map
    (fun r => forEachRefLine r.1 ++ "\n"))))

/-- Remove a file from the state if present (os.remove after the existence
check). -/
def removeFile (st : GitState) (path : String) : GitState :=
  { st with files := st.files.filter (fun f => f.1 != path) }

/-- restore_refs: when the backup file is absent, log a warning and return
without touching anything (the finally clause finds no file to remove).
When the file is present, run git update-ref with the stdin flag and with
the redirection token and the path as two further arguments; update-ref
rejects extra arguments when reading from standard input, the command exits
nonzero, run_git_command raises, and the finally clause removes the backup
file.  The boolean result records whether the call raised. -/
def restore_refs (st : GitState) : GitState × Bool :=
  if (st.files.lookup refsBackupFile).isSome then
    (removeFile st refsBackupFile, true)
  else
    (st, false)

/-- rewrite_commit_messages around an arbitrary behaviour of the
filter-branch invocation (the external history rewrite may mutate references
and may fail): first backup_refs, then the rewrite; on failure the except
clause calls restore_refs before re-raising; in all cases the finally clause
removes the backup file if it exists.  The boolean result records success. -/
def rewrite_commit_messages (fb : GitState → GitState × Bool)
    (st : GitState) : GitState × Bool :=
  if (fb (backup_refs st).1).2 then
    (removeFile (fb (backup_refs st).1).1 refsBackupFile, true)
  else
    (removeFile (restore_refs (fb (backup_refs st).1).1).1 refsBackupFile, false)

/-- The one-branch repository state used for the concrete evaluations. -/
def st0 : GitState :=
  { refs := [("refs/heads/main", "aaa1111")], files := [] }

/-- C2 evaluation: backup_refs leaves the state unchanged and writes no
backup file at all (the redirection token is an argument of git, not a
shell redirection), its captured output holds the quoted reference name and
no target object id, and restore_refs immediately afterwards finds no file,
warns and restores nothing. -/
theorem C2_backup_refs_writes_no_snapshot :
    (backup_refs st0).1 = st0
    ∧ ((backup_refs st0).1.files.lookup refsBackupFile) = none
    ∧ (backup_refs st0).2 = "'refs/heads/main'\n"
    ∧ restore_refs (backup_refs st0).1 = (st0, false) := by decide

/-- A filter-branch behaviour that moves the branch to a new commit chain
and then fails partway. -/
def fbFailAfterMutation : GitState → GitState × Bool :=
  fun st => ({ st with refs := [("refs/heads/main", "bbb2222")] }, false)

/-- C3 evaluation: when the rewrite invocation mutates the branch and fails,
rewrite_commit_messages raises after its restore attempt, yet the final
reference state keeps the mutated target: no backup file exists (backup_refs
never wrote one), so the restore is a warning no-op and the pre-rewrite
state is not re-established. -/
theorem C3_failed_rewrite_leaves_mutated_refs :
    (rewrite_commit_messages fbFailAfterMutation st0).2 = false
    ∧ (rewrite_commit_messages fbFailAfterMutation st0).1.refs
        = [("refs/heads/main", "bbb2222")]
    ∧ st0.refs = [("refs/heads/main", "aaa1111")] := by decide

/-- A state in which a refs backup file is present. -/
def stWithBackup : GitState :=
  { refs := [("refs/heads/main", "aaa1111")],
    files := [(".git/refs_backup", "'refs/heads/main'")] }

/-- C4 counterexample: a failed restore attempt does not leave the backup
file in place.  With a backup file present, the update-ref invocation fails
(extra arguments beside the stdin flag), restore_refs raises, and its
finally clause deletes the backup file anyway. -/
theorem C4_failed_restore_deletes_backup :
    (restore_refs stWithBackup).2 = true
    ∧ ((restore_refs stWithBackup).1.files.lookup refsBackupFile) = none := by
  decide

/-- Looking up a key in an association list from which every pair with that
key has been filtered out yields nothing. -/
theorem lookup_filter_ne_none (p : String) (L : List (String × String)) :
    (L.filter (fun f => f.1 != p)).lookup p = none := by
  induction L with
  | nil => rfl
  | cons f rest ih =>
    obtain ⟨k, v⟩ := f
    by_cases hk : k = p
    · subst hk
      simp [List.filter_cons, ih]
    · have hpk : (p == k) = false := beq_eq_false_iff_ne.mpr (fun h => hk h.symm)
      simp [List.filter_cons, List.lookup, hk, hpk, ih]

/-- C4 amended: the backup file never survives either operation.
restore_refs removes it in its finally clause after every restore attempt,
failed or not, and rewrite_commit_messages removes it in its finally clause
whether the rewrite invocation succeeded or failed; deletion is not
conditioned on success or on any confirmation by the caller. -/
theorem C4_backup_file_never_survives (st : GitState)
    (fb : GitState → GitState × Bool) :
    ((restore_refs st).1.files.lookup refsBackupFile) = none
    ∧ ((rewrite_commit_messages fb st).1.files.lookup refsBackupFile) = none := by
  constructor
  · unfold restore_refs
    by_cases hp : (st.files.lookup refsBackupFile).isSome
    · rw [if_pos hp]
      exact lookup_filter_ne_none refsBackupFile st.files
    · rw [if_neg hp]
      exact Option.not_isSome_iff_eq_none.mp hp
  · unfold rewrite_commit_messages
    by_cases hr : (fb (backup_refs st).1).2 = true
    · rw [if_pos hr]
      exact lookup_filter_ne_none refsBackupFile (fb (backup_refs st).1).1.files
    · rw [if_neg hr]
      exact lookup_filter_ne_none refsBackupFile
        (restore_refs (fb (backup_refs st).1).1).1.files

/-! ## Message generation (OCDG/utils.py)

The text-generation client is an oracle from prompts to response text; the
prompt text is represented by the data that parameterises it (the previous
message, the diff chunk and the partial marker, or the combine payload).
The module OCDG/utils.py imports logging, subprocess, os, loguru and typing
only: the name json is never imported, so every evaluation of json.loads
raises NameError at run time, and the except clauses that name
json.JSONDecodeError cannot catch it. -/

/-- A parsed structured response: a mapping from keys to string values. -/
abbrev Parsed := List (List Char × List Char)

/-- The generation requests issued to the client, identified by the data
embedded in their prompt text. -/
inductive GenCall where
  | chunkCall (oldMessage chunk : List Char) (partialMark : Bool)
  | singleCall (oldMessage diff : List Char)
  | combineCall (payload : List Parsed)
deriving DecidableEq

/-- The Python exceptions arising in the generation path. -/
inductive PyExn where
  | nameError
  | jsonDecodeError
deriving DecidableEq

/-- Every occurrence of json.loads in OCDG/utils.py raises NameError,
because the module never imports json. -/
def jsonLoads (_response : List Char) : Except PyExn Parsed :=
  Except.error PyExn.nameError

/-- Is a call the combine request of combine_messages? -/
def isCombineCall : GenCall → Bool
  | GenCall.combineCall _ => true
  | _ => false

/-- The loop of generate_commit_multi over the chunks: build the prompt for
the chunk (marked partial unless it is the last chunk), issue the request,
and parse the response; a json.JSONDecodeError would be logged and the chunk
skipped, while any other exception aborts the loop.  The second component
logs the requests issued, in order. -/
def multiLoop (client : GenCall → List Char) (oldMessage : List Char)
    (total : Nat) :
    List (List Char) → Nat → List Parsed → List GenCall →
      (Except PyExn (List Parsed)) × List GenCall
  | [], _, acc, log => (Except.ok acc, log)
  | chunk :: rest, i, acc, log =>
    match jsonLoads (client (GenCall.chunkCall oldMessage chunk (i != total - 1))) with
    | Except.ok p =>
      multiLoop client oldMessage total rest (i + 1) (acc ++ [p])
        (log ++ [GenCall.chunkCall oldMessage chunk (i != total - 1)])
    | Except.error PyExn.jsonDecodeError =>
      multiLoop client oldMessage total rest (i + 1) acc
        (log ++ [GenCall.chunkCall oldMessage chunk (i != total - 1)])
    | Except.error e =>
      (Except.error e, log ++ [GenCall.chunkCall oldMessage chunk (i != total - 1)])

/-- generate_commit_multi: slice the diff into chunks of 6000 characters and
run the loop over them. -/
def generate_commit_multi (client : GenCall → List Char)
    (diff commit_message : List Char) :
    (Except PyExn (List Parsed)) × List GenCall :=
  multiLoop client commit_message (diffChunks diff).length (diffChunks diff)
    0 [] []

/-- combine_messages: one combine request over the list of partial results;
a json.JSONDecodeError in the parse would yield the empty dictionary, any
other exception propagates. -/
def combine_messages (client : GenCall → List Char) (multi : List Parsed) :
    (Except PyExn Parsed) × List GenCall :=
  match jsonLoads (client (GenCall.combineCall multi)) with
  | Except.ok p => (Except.ok p, [GenCall.combineCall multi])
  | Except.error PyExn.jsonDecodeError => (Except.ok [], [GenCall.combineCall multi])
  | Except.error e => (Except.error e, [GenCall.combineCall multi])

/-- The final description assembled by generate_commit_description: the
newline-join of the title, an empty line and the body, stripped; missing
keys default to the empty string. -/
def buildNewDescription (g : Parsed) : List Char :=
  pyStrip (dictGet g (("New Commit Title").data) []
    ++ '\n' :: '\n' :: dictGet g (("New Detailed Commit Message").data) [])

/-- generate_commit_description: below the 6000-character threshold one
single generation request is made; at or above it, generate_commit_multi
runs and, unless it produced nothing or raised, one combine request follows.
The surrounding try/except turns any exception into the result None.  The
second component logs every request issued, in order. -/
def generate_commit_description (client : GenCall → List Char)
    (diff old_description : List Char) :
    Option (List Char) × List GenCall :=
  if 6000 ≤ diff.length then
    match generate_commit_multi client diff old_description with
    | (Except.error _e, log) => (none, log)
    | (Except.ok [], log) => (none, log)
    | (Except.ok multi, log) =>
      match combine_messages client multi with
      | (Except.error _e, log2) => (none, log ++ log2)
      | (Except.ok g, log2) => (some (buildNewDescription g), log ++ log2)
  else
    match jsonLoads (client (GenCall.singleCall old_description diff)) with
    | Except.error _e => (none, [GenCall.singleCall old_description diff])
    | Except.ok g =>
      (some (buildNewDescription g), [GenCall.singleCall old_description diff])

/-- C6 evaluation: for every diff at or above the 6000-character threshold,
the run issues exactly one generation request (the first chunk), not one per
chunk, issues no combine request at all, and returns None: parsing the first
chunk response raises NameError (json is not imported in OCDG/utils.py),
the loop aborts, and the outer except returns None. -/
theorem C6_big_diff_one_call_no_combine (client : GenCall → List Char)
    (diff old : List Char) (h : 6000 ≤ diff.length) :
    (generate_commit_description client diff old).1 = none
    ∧ (generate_commit_description client diff old).2 =
        [GenCall.chunkCall old (diff.take 6000)
          ((0 : Nat) != (diffChunks diff).length - 1)] := by
  obtain ⟨c, cs, rfl⟩ : ∃ c cs, diff = c :: cs := by
    cases diff with
    | nil => simp at h
    | cons c cs => exact ⟨c, cs, rfl⟩
  unfold generate_commit_description generate_commit_multi
  rw [if_pos h]
  rw [diffChunks]
  unfold multiLoop
  simp [jsonLoads]

/-- Witness for C6 on a 12000-character diff (two chunks). -/
theorem C6_big_diff_one_call_no_combine_witness :
    6000 ≤ (List.replicate 12000 'a').length
    ∧ ((generate_commit_description (fun _ => []) (List.replicate 12000 'a') []).1 = none
    ∧ (generate_commit_description (fun _ => []) (List.replicate 12000 'a') []).2 =
        [GenCall.chunkCall [] ((List.replicate 12000 'a').take 6000)
          ((0 : Nat) != (diffChunks (List.replicate 12000 'a')).length - 1)]) :=
  ⟨by simp only [List.length_replicate]; omega,
    C6_big_diff_one_call_no_combine (fun _ => []) (List.replicate 12000 'a') []
      (by simp only [List.length_replicate]; omega)⟩
